import Mathlib

/-!
# Verification of the hns-ledger signing bridge

Shallow embedding of the repository sources:
* `src/lib/apdu/common.js` — status-word tables,
* `src/unnamed/part_000` (input.js) — the `LedgerInput` signing-input model,
* `src/lib/ledger/client.js` — `LedgerClient.parseTX` and
  `LedgerClient.getInputSignature`.

Bytes are modelled as `Nat` (each value kept below 256 by the writers),
buffers as `List Nat`.  External hsd primitives (`Outpoint`, `Address`,
`Covenant`, `KeyRing`, `Script`) are modelled with their documented
serialization; the library hash `blake160` used by `KeyRing.getKeyHash`
is kept symbolic through the inductive `Digest`, so no two distinct
inputs are ever identified.
-/

/-- Symbolic digests: external library hashes are kept as constructors,
never computed, so equalities between them are exactly equalities of
their preimages. -/
inductive Digest where
  | blake160 (data : List Nat)
  deriving DecidableEq, Repr

/-- hsd `Script`: either built from raw bytes (`Script.fromRaw`) or
synthesized as a pay-to-pubkey-hash script from a key hash
(`Script.fromPubkeyhash`).  The script body is irrelevant to the claims,
so the two provenances are kept as constructors. -/
inductive Script where
  | fromRaw (bytes : List Nat)
  | pubkeyhash (keyHash : Digest)
  deriving DecidableEq, Repr

/-- hsd `Script.fromPubkeyhash`. -/
def Script.fromPubkeyhash (keyHash : Digest) : Script :=
  Script.pubkeyhash keyHash

/-- hsd `Script.hashType.ALL`. -/
def hashTypeALL : Nat := 1

/-- hsd `Network` (only the identity of the network matters here);
`Network.primary` is the `main` network. -/
inductive Network where
  | main
  | testnet
  | regtest
  | simnet
  deriving DecidableEq, Repr

/-- hsd `Network.primary` (the default network argument of
`LedgerInput.getRing`). -/
def Network.primary : Network := Network.main

/-- hsd `Address`: a version byte and a hash. -/
structure Address where
  version : Nat
  hash : List Nat
  deriving DecidableEq, Repr

/-- hsd `Address.isScripthash()`: version 0 with a 32-byte hash. -/
def Address.isScripthash (a : Address) : Bool :=
  a.version == 0 && a.hash.length == 32

/-- hsd `Coin`: the previous output being spent (value, address, and the
outpoint data `hash`/`index`). -/
structure Coin where
  value : Nat
  address : Address
  hash : List Nat
  index : Nat
  deriving DecidableEq, Repr

/-- hsd `Outpoint`: (previous-transaction-hash, output-index). -/
structure Outpoint where
  hash : List Nat
  index : Nat
  deriving DecidableEq, Repr

/-- hsd `KeyRing`: public key, optional script, network. -/
structure KeyRing where
  publicKey : List Nat
  script : Option Script
  network : Network
  deriving DecidableEq, Repr

/-- hsd `KeyRing.fromPublic`: a ring holding the raw public key and no
script. -/
def KeyRing.fromPublic (publicKey : List Nat) (network : Network) : KeyRing :=
  { publicKey := publicKey, script := none, network := network }

/-- hsd `KeyRing.getKeyHash`: blake160 of the public key (symbolic). -/
def KeyRing.getKeyHash (r : KeyRing) : Digest :=
  Digest.blake160 r.publicKey

/-- The error classes thrown by the embedded code: `bsert` assertion
failures, `LedgerError` usage errors, mapped APDU status errors (kind,
message, raw status code), and a JavaScript `TypeError` for a property
access on `null`/`undefined`. -/
inductive JSError where
  | assertion (message : String)
  | ledger (message : String)
  | apdu (kind : String) (message : String) (code : Nat)
  | typeError
  deriving DecidableEq, Repr

/- ## src/lib/apdu/common.js — status tables -/

/-- `common.status` of `src/lib/apdu/common.js`, lines 84-121, in source
order: status name to 2-byte status word. -/
def commonStatus : List (String × Nat) :=
  [ ("CACHE_FLUSH_ERROR", 0x6f27)
  , ("CACHE_WRITE_ERROR", 0x6f26)
  , ("CANNOT_ENCODE_ADDRESS", 0x6f14)
  , ("CANNOT_ENCODE_XPUB", 0x6f23)
  , ("CANNOT_INIT_BLAKE2B_CTX", 0x6f13)
  , ("CANNOT_PEEK_SCRIPT_LEN", 0x6f1e)
  , ("CANNOT_READ_BIP32_PATH", 0x6f15)
  , ("CANNOT_READ_INPUT_INDEX", 0x6f1b)
  , ("CANNOT_READ_INPUTS_LEN", 0x6f18)
  , ("CANNOT_READ_OUTPUTS_LEN", 0x6f19)
  , ("CANNOT_READ_OUTPUTS_SIZE", 0x6f1a)
  , ("CANNOT_READ_TX_VERSION", 0x6f16)
  , ("CANNOT_READ_TX_LOCKTIME", 0x6f17)
  , ("CANNOT_READ_SCRIPT_LEN", 0x6f1d)
  , ("CANNOT_READ_SIGHASH_TYPE", 0x6f1c)
  , ("CANNOT_UPDATE_UI", 0x6f28)
  , ("CLA_NOT_SUPPORTED", 0x6e00)
  , ("CONDITIONS_OF_USE_NOT_SATISFIED", 0x6985)
  , ("FAILED_TO_SIGN_INPUT", 0x6f29)
  , ("FILE_NOT_FOUND", 0x6a82)
  , ("INCORRECT_ADDR_PATH", 0x6f25)
  , ("INCORRECT_INPUT_INDEX", 0x6f1F)
  , ("INCORRECT_LENGTH", 0x6701)
  , ("INCORRECT_LC", 0x6700)
  , ("INCORRECT_CDATA", 0x6a80)
  , ("INCORRECT_P1", 0x6af1)
  , ("INCORRECT_P2", 0x6af2)
  , ("INCORRECT_PARAMETERS", 0x6b00)
  , ("INCORRECT_PARSER_STATE", 0x6f21)
  , ("INCORRECT_SIGHASH_TYPE", 0x6f20)
  , ("INCORRECT_SIGNATURE_PATH", 0x6f22)
  , ("INCORRECT_INPUTS_LEN", 0x6f24)
  , ("INTERNAL_ERROR", 0x6f)
  , ("INS_NOT_SUPPORTED", 0x6d00)
  , ("SECURITY_CONDITION_NOT_SATISFIED", 0x6982)
  , ("SUCCESS", 0x9000) ]

/-- `common.errorByStatus` of `src/lib/apdu/common.js`, lines 128-165:
status name to human-readable message. -/
def errorByStatus : List (String × String) :=
  [ ("CACHE_FLUSH_ERROR", "Error flushing internal cache")
  , ("CACHE_WRITE_ERROR", "Error writing to internal cache")
  , ("CANNOT_ENCODE_ADDRESS", "Cannot bech32 encode address")
  , ("CANNOT_ENCODE_XPUB", "Cannot base58 encode xpub")
  , ("CANNOT_INIT_BLAKE2B_CTX", "Cannot initialize blake2b context")
  , ("CANNOT_PEEK_SCRIPT_LEN", "Cannot peek input script length")
  , ("CANNOT_READ_BIP32_PATH", "Cannot read BIP32 path")
  , ("CANNOT_READ_INPUT_INDEX", "Cannot read index of input")
  , ("CANNOT_READ_INPUTS_LEN", "Cannot read input vector length")
  , ("CANNOT_READ_OUTPUTS_LEN", "Cannot read output vector length")
  , ("CANNOT_READ_OUTPUTS_SIZE", "Cannot read size of outputs vector")
  , ("CANNOT_READ_TX_VERSION", "Cannot read tx version")
  , ("CANNOT_READ_TX_LOCKTIME", "Cannot read tx locktime")
  , ("CANNOT_READ_SCRIPT_LEN", "Cannot read input script length")
  , ("CANNOT_READ_SIGHASH_TYPE", "Cannot read sighash type")
  , ("CANNOT_UPDATE_UI", "Cannot update Ledger UI")
  , ("CLA_NOT_SUPPORTED", "Instruction not supported (check app on the device)")
  , ("CONDITIONS_OF_USE_NOT_SATISFIED", "User rejected on-screen confirmation")
  , ("FAILED_TO_SIGN_INPUT", "Failed to sign input")
  , ("FILE_NOT_FOUND", "File not found")
  , ("INCORRECT_ADDR_PATH", "Incorrect BIP44 address path")
  , ("INCORRECT_CDATA", "Incorrect CDATA (command data)")
  , ("INCORRECT_INPUT_INDEX", "Input index larger than inputs vector length")
  , ("INCORRECT_INPUTS_LEN", "Inputs vector length is larger than device limit")
  , ("INCORRECT_LENGTH", "Incorrect length")
  , ("INCORRECT_LC", "Incorrect LC (length of command data)")
  , ("INCORRECT_P1", "Incorrect P1")
  , ("INCORRECT_P2", "Incorrect P2")
  , ("INCORRECT_PARAMETERS", "Incorrect parameters (P1 or P2)")
  , ("INCORRECT_PARSER_STATE", "Incorrect parser state")
  , ("INCORRECT_SIGHASH_TYPE", "Incorrect sighash type")
  , ("INCORRECT_SIGNATURE_PATH", "Incorrect signature path")
  , ("INS_NOT_SUPPORTED", "Instruction not supported (check app on the device)")
  , ("INTERNAL_ERROR", "Internal error")
  , ("SECURITY_CONDITION_NOT_SATISFIED", "Invalid security status")
  , ("UNKNOWN_ERROR", "Unknown status code") ]

/-- `util.reverse` applied to `common.status`
(`common.statusByVal = util.reverse(common.status)`): value-to-key map.
Modelled from the spec: `util.js` is not under `src/`; a JavaScript
object literal keeps insertion order and a later key with the same value
overwrites an earlier one, hence the last match wins. -/
def statusByVal (code : Nat) : Option String :=
  ((commonStatus.filter (fun e => e.2 == code)).getLast?).map (fun e => e.1)

/-- Look up the message for a status name in `errorByStatus`. -/
def messageByName (name : String) : Option String :=
  (errorByStatus.find? (fun e => e.1 == name)).map (fun e => e.2)

/-- Status-word to (kind, message).  Modelled from the spec: the APDU
response parser (`src/lib/apdu/apdu.js`, not under `src/`) resolves a
non-success status word through `statusByVal` and `errorByStatus`;
"lookup failure still returns a typed error with the raw code and a
generic message, it never panics". -/
def errorForStatus (code : Nat) : String × String :=
  match statusByVal code with
  | some name =>
    match messageByName name with
    | some msg => (name, msg)
    | none => (name, "Unknown status code")
  | none => ("UNKNOWN_ERROR", "Unknown status code")

/-- `common.status.SUCCESS`. -/
def statusSUCCESS : Nat := 0x9000

/-- The typed error the engine surfaces for a non-success status word. -/
def apduErrorFor (code : Nat) : JSError :=
  JSError.apdu (errorForStatus code).1 (errorForStatus code).2 code

/-- C4: the user-rejection, file-not-found, and instruction-not-supported
status words map to exactly their documented named kinds and messages,
never the generic unknown-status fallback. -/
theorem c4_status_table :
    errorForStatus 0x6985 =
      ("CONDITIONS_OF_USE_NOT_SATISFIED", "User rejected on-screen confirmation") ∧
    errorForStatus 0x6a82 = ("FILE_NOT_FOUND", "File not found") ∧
    errorForStatus 0x6d00 =
      ("INS_NOT_SUPPORTED", "Instruction not supported (check app on the device)") := by
  refine ⟨?_, ?_, ?_⟩ <;> rfl

/- ## src/unnamed/part_000 (input.js) — LedgerInput -/

/-- The options object accepted by `LedgerInput.fromOptions`.
`path` is modelled after `util.parsePath` has already turned a string
into an index array (the claims never exercise string parsing);
a present `path`/`type`/`redeem`/`coin`/`publicKey` is `some`,
and an absent or `null` one is `none`. -/
structure LIOptions where
  path : Option (List Nat)
  type : Option Nat
  redeem : Option Script
  coin : Option Coin
  publicKey : Option (List Nat)
  deriving DecidableEq, Repr

/-- The `LedgerInput` object: the constructor-initialized public fields,
the never-assigned `script` field consulted by `getPrev`, the memo
fields `_ring`/`_key`/`_prev`/`_prevred`/`_outpoint`, and the `_coin`
field that only `refresh` ever writes.  `_key` is the string key cache
(`''` is falsy in JavaScript, modelled as `none`); `_outpoint` is never
initialized by the constructor (`undefined`, modelled as `none`). -/
structure LedgerInput where
  path : List Nat
  coin : Option Coin
  redeem : Option Script
  publicKey : Option (List Nat)
  type : Nat
  script : Option Script
  _ring : Option KeyRing
  _key : Option (List Nat)
  _prev : Option Script
  _prevred : Option Script
  _outpoint : Option Outpoint
  _coin : Option Coin
  deriving DecidableEq, Repr

/-- `new LedgerInput()` before `fromOptions` runs: the constructor body
of input.js lines 76-90. -/
def LedgerInput.init : LedgerInput :=
  { path := [], coin := none, redeem := none, publicKey := none
  , type := hashTypeALL, script := none
  , _ring := none, _key := none, _prev := none, _prevred := none
  , _outpoint := none, _coin := none }

/-- `LedgerInput.fromOptions` (input.js lines 97-137), in source order:
path required; if `type` is present the code asserts
`options.type !== Script.hashType.ALL` with message
"Ledger only supports SIGHASH_ALL" (so it throws exactly when the given
type IS `ALL`) and otherwise stores the given type; a present redeem is
stored; a missing coin fails; a present public key is stored; finally a
script-hash coin without a redeem script fails. -/
def LedgerInput.fromOptions (opts : LIOptions) : Except JSError LedgerInput := do
  let p ← match opts.path with
    | none => Except.error (JSError.assertion "Path is required.")
    | some p => Except.ok p
  let ty ← match opts.type with
    | none => Except.ok hashTypeALL
    | some t =>
      if t = hashTypeALL then
        Except.error (JSError.assertion "Ledger only supports SIGHASH_ALL")
      else
        Except.ok t
  let c ← match opts.coin with
    | none => Except.error (JSError.assertion "LedgerInput needs Coin")
    | some c => Except.ok c
  if c.address.isScripthash && opts.redeem.isNone then
    Except.error (JSError.assertion "Cannot sign ScriptHash without redeem.")
  else
    Except.ok { LedgerInput.init with
      path := p, type := ty, redeem := opts.redeem
      , coin := some c, publicKey := opts.publicKey }

/-- `LedgerInput.getRing` (input.js lines 227-239): throws a
`LedgerError` when the public key is missing; otherwise builds the ring
from the raw public key on first call (attaching the redeem script when
present) and memoizes it.  Getters are state transformers: they return
the value together with the updated `LedgerInput`. -/
def LedgerInput.getRing (i : LedgerInput) (network : Network := Network.primary) :
    Except JSError (KeyRing × LedgerInput) :=
  match i.publicKey with
  | none => Except.error (JSError.ledger "Cannot return ring without public key")
  | some pk =>
    match i._ring with
    | some r => Except.ok (r, i)
    | none =>
      let r0 := KeyRing.fromPublic pk network
      let r := match i.redeem with
        | some red => { r0 with script := some red }
        | none => r0
      Except.ok (r, { i with _ring := some r })

/-- `LedgerInput.getPrev` (input.js lines 181-191): memoized; uses the
explicit `script` field when set, else synthesizes a pay-to-pubkey-hash
script from the ring's key hash (via `getRing()` at the default
network). -/
def LedgerInput.getPrev (i : LedgerInput) : Except JSError (Script × LedgerInput) :=
  match i._prev with
  | some p => Except.ok (p, i)
  | none =>
    match i.script with
    | some s => Except.ok (s, { i with _prev := some s })
    | none =>
      match i.getRing with
      | Except.error e => Except.error e
      | Except.ok (r, i1) =>
        let p := Script.fromPubkeyhash r.getKeyHash
        Except.ok (p, { i1 with _prev := some p })

/-- `LedgerInput.getPrevRedeem` (input.js lines 199-210): returns the
memoized value when cached (the cache check `if (this._prevred)` is a
JavaScript truthiness test, so a `null` store does not count as cached);
for a script-hash coin stores and returns `this.redeem`, else stores and
returns `getPrev()`.  Reading `coin.address` on a missing coin is a
`TypeError`. -/
def LedgerInput.getPrevRedeem (i : LedgerInput) :
    Except JSError (Option Script × LedgerInput) :=
  match i._prevred with
  | some p => Except.ok (some p, i)
  | none =>
    match i.coin with
    | none => Except.error JSError.typeError
    | some c =>
      if c.address.isScripthash then
        Except.ok (i.redeem, { i with _prevred := i.redeem })
      else
        match i.getPrev with
        | Except.error e => Except.error e
        | Except.ok (p, i1) => Except.ok (some p, { i1 with _prevred := some p })

/-- `LedgerInput.getOutpoint` (input.js lines 166-174): memoized outpoint
built from the coin's hash and index. -/
def LedgerInput.getOutpoint (i : LedgerInput) :
    Except JSError (Outpoint × LedgerInput) :=
  match i._outpoint with
  | some o => Except.ok (o, i)
  | none =>
    match i.coin with
    | none => Except.error JSError.typeError
    | some c =>
      let o : Outpoint := { hash := c.hash, index := c.index }
      Except.ok (o, { i with _outpoint := some o })

/-- hsd `Outpoint.toKey`: the canonical byte key of (hash, index). -/
def Outpoint.toKey (o : Outpoint) : List Nat :=
  o.hash ++ [o.index % 256, o.index / 256 % 256,
             o.index / 2 ^ 16 % 256, o.index / 2 ^ 24 % 256]

/-- `LedgerInput.toKey` (input.js lines 154-159): memoized outpoint
key. -/
def LedgerInput.toKey (i : LedgerInput) : Except JSError (List Nat × LedgerInput) :=
  match i._key with
  | some k => Except.ok (k, i)
  | none =>
    match i.getOutpoint with
    | Except.error e => Except.error e
    | Except.ok (o, i1) =>
      Except.ok (o.toKey, { i1 with _key := some o.toKey })

/-- `LedgerInput.refresh` (input.js lines 245-251), exactly as written:
it assigns `null` to `_coin`, `_ring`, `_key`, `_prev` and `_outpoint` —
and does NOT touch `_prevred`. -/
def LedgerInput.refresh (i : LedgerInput) : LedgerInput :=
  { i with _coin := none, _ring := none, _key := none
         , _prev := none, _outpoint := none }

/- ## Fixtures for concrete evaluations -/

/-- Fixture: a pay-to-pubkey-hash address (version 0, 20-byte hash), not
script-hash. -/
def addrPKH : Address := { version := 0, hash := List.replicate 20 7 }

/-- Fixture: a script-hash address (version 0, 32-byte hash). -/
def addrSH : Address := { version := 0, hash := List.replicate 32 9 }

/-- Fixture: a coin paying to `addrPKH`. -/
def coinPKH : Coin :=
  { value := 5000, address := addrPKH, hash := List.replicate 32 1, index := 0 }

/-- Fixture: a coin paying to `addrSH`. -/
def coinSH : Coin :=
  { value := 7000, address := addrSH, hash := List.replicate 32 2, index := 1 }

/-- Fixture: a redeem script. -/
def redeemR : Script := Script.fromRaw [81]

/-- Fixture: a second, different redeem script. -/
def redeemR2 : Script := Script.fromRaw [82]

/-- Fixture: a raw 33-byte public key. -/
def pkA : List Nat := List.replicate 33 3

/-- Fixture: the `LedgerInput` produced by `fromOptions` for a
script-hash coin with redeem script `redeemR` and public key `pkA`. -/
def inputSH : LedgerInput :=
  { LedgerInput.init with
      path := [0], coin := some coinSH
      , redeem := some redeemR, publicKey := some pkA }

/-- `inputSH` after its first `getPrevRedeem` call memoized `redeemR`. -/
def inputSH1 : LedgerInput := { inputSH with _prevred := some redeemR }

/-- `inputSH1` after the caller replaced the redeem script and called
`refresh()`. -/
def inputSH2 : LedgerInput :=
  LedgerInput.refresh { inputSH1 with redeem := some redeemR2 }

/- ## Shape of a successful construction -/

/-- Any `LedgerInput` built by a successful `fromOptions` has every memo
field empty, never has the `script` field set (no constructor option
assigns it), and carries over the given redeem/publicKey/coin. -/
theorem fromOptions_ok_shape (opts : LIOptions) (i : LedgerInput)
    (hok : LedgerInput.fromOptions opts = Except.ok i) :
    i.script = none ∧ i._ring = none ∧ i._key = none ∧ i._prev = none ∧
    i._prevred = none ∧ i._outpoint = none ∧ i.publicKey = opts.publicKey ∧
    i.redeem = opts.redeem ∧ i.coin = opts.coin ∧
    (∀ p, opts.path = some p → i.path = p) := by
  unfold LedgerInput.fromOptions at hok
  rcases hpath : opts.path with _ | p <;> rw [hpath] at hok <;>
    simp only [Bind.bind, Except.bind] at hok
  · exact absurd hok (by simp)
  rcases htype : opts.type with _ | t <;> rw [htype] at hok <;> dsimp only at hok
  case some.some =>
    by_cases hty : t = hashTypeALL
    · rw [if_pos hty] at hok
      exact absurd hok (by simp)
    · rw [if_neg hty] at hok
      rcases hcoin : opts.coin with _ | c <;> rw [hcoin] at hok <;> dsimp only at hok
      · exact absurd hok (by simp)
      · by_cases hsh : (c.address.isScripthash && opts.redeem.isNone) = true
        · rw [if_pos hsh] at hok
          exact absurd hok (by simp)
        · rw [if_neg hsh] at hok
          simp only [Except.ok.injEq] at hok
          subst hok
          simp [LedgerInput.init, hcoin, hpath]
  case some.none =>
    rcases hcoin : opts.coin with _ | c <;> rw [hcoin] at hok <;> dsimp only at hok
    · exact absurd hok (by simp)
    · by_cases hsh : (c.address.isScripthash && opts.redeem.isNone) = true
      · rw [if_pos hsh] at hok
        exact absurd hok (by simp)
      · rw [if_neg hsh] at hok
        simp only [Except.ok.injEq] at hok
        subst hok
        simp [LedgerInput.init, hcoin, hpath]

/-- Fixture: the `LedgerInput` produced by `fromOptions` for the
pubkey-hash coin with no redeem and no public key. -/
def inputPKH : LedgerInput :=
  { LedgerInput.init with path := [0], coin := some coinPKH }

/-- C1: the claim says a present sighash type other than `SIGHASH_ALL`
must fail construction and `SIGHASH_ALL` must succeed.  The code has the
assertion condition inverted (`options.type !== Script.hashType.ALL`):
passing `SIGHASH_ALL` (1) throws the very message
"Ledger only supports SIGHASH_ALL", while passing `SIGHASH_SINGLE` (3)
succeeds and stores type 3. -/
theorem c1_sighash_assert_inverted :
    LedgerInput.fromOptions
      { path := some [0], type := some hashTypeALL
        , redeem := none, coin := some coinPKH, publicKey := none } =
      Except.error (JSError.assertion "Ledger only supports SIGHASH_ALL") ∧
    LedgerInput.fromOptions
      { path := some [0], type := some 3
        , redeem := none, coin := some coinPKH, publicKey := none } =
      Except.ok { LedgerInput.init with
        path := [0], type := 3, coin := some coinPKH } := by
  exact ⟨rfl, rfl⟩

/-- C3: the claim says `refresh()` clears all memoized derived fields
together.  The code clears `_coin` (a field no getter reads), `_ring`,
`_key`, `_prev` and `_outpoint` but not `_prevred`: after a first
`getPrevRedeem`, a redeem-script change and a `refresh()`, the stale
previous-redeem cache is still returned. -/
theorem c3_refresh_partial_invalidation :
    LedgerInput.fromOptions
      { path := some [0], type := none, redeem := some redeemR
        , coin := some coinSH, publicKey := some pkA } = Except.ok inputSH ∧
    inputSH.getPrevRedeem = Except.ok (some redeemR, inputSH1) ∧
    inputSH2._ring = none ∧ inputSH2._key = none ∧ inputSH2._prev = none ∧
    inputSH2._outpoint = none ∧
    inputSH2._prevred = some redeemR ∧
    inputSH2.redeem = some redeemR2 ∧
    inputSH2.getPrevRedeem = Except.ok (some redeemR, inputSH2) := by
  exact ⟨rfl, rfl, rfl, rfl, rfl, rfl, rfl, rfl, rfl⟩

/-- C7: for a script-hash coin, `fromOptions` fails with the
redeem-required error when the redeem script is absent, and succeeds
when it is present (the other checks passing: path present, type
absent or accepted by the check as coded). -/
theorem c7_scripthash_requires_redeem (opts : LIOptions) (p : List Nat) (c : Coin)
    (hp : opts.path = some p)
    (hty : ∀ t, opts.type = some t → t ≠ hashTypeALL)
    (hc : opts.coin = some c) (hsh : c.address.isScripthash = true) :
    (opts.redeem = none →
      LedgerInput.fromOptions opts =
        Except.error (JSError.assertion "Cannot sign ScriptHash without redeem.")) ∧
    (∀ r, opts.redeem = some r →
      LedgerInput.fromOptions opts = Except.ok { LedgerInput.init with
        path := p, type := opts.type.getD hashTypeALL, redeem := some r
        , coin := some c, publicKey := opts.publicKey }) := by
  constructor
  · intro hred
    unfold LedgerInput.fromOptions
    rcases htype : opts.type with _ | t
    · simp [hp, hc, Bind.bind, Except.bind, hsh, hred]
    · simp [hp, htype, hc, Bind.bind, Except.bind, hsh, hred, hty t htype]
  · intro r hred
    unfold LedgerInput.fromOptions
    rcases htype : opts.type with _ | t
    · simp [hp, hc, Bind.bind, Except.bind, hred]
    · simp [hp, htype, hc, Bind.bind, Except.bind, hred, hty t htype]

/-- Witness for C7 at a concrete script-hash coin without redeem. -/
theorem c7_scripthash_requires_redeem_witness :
    LedgerInput.fromOptions
      { path := some [0], type := none, redeem := none
        , coin := some coinSH, publicKey := none } =
      Except.error (JSError.assertion "Cannot sign ScriptHash without redeem.") :=
  (c7_scripthash_requires_redeem
    { path := some [0], type := none, redeem := none
      , coin := some coinSH, publicKey := none }
    [0] coinSH rfl (fun t h => by simp at h) rfl rfl).1 rfl

/-- C8: `getRing` throws a typed `LedgerError` when the public key is
missing (never a default ring); with a public key set, the first call
builds the ring from the raw key (attaching the redeem script when
present) and memoizes it, and a later call returns that same ring. -/
theorem c8_getRing (i : LedgerInput) (net : Network) :
    (i.publicKey = none →
      i.getRing net =
        Except.error (JSError.ledger "Cannot return ring without public key")) ∧
    (∀ pk, i.publicKey = some pk → i._ring = none →
      i.getRing net =
        Except.ok (⟨pk, i.redeem, net⟩,
          { i with _ring := some ⟨pk, i.redeem, net⟩ }) ∧
      LedgerInput.getRing { i with _ring := some ⟨pk, i.redeem, net⟩ } net =
        Except.ok (⟨pk, i.redeem, net⟩,
          { i with _ring := some ⟨pk, i.redeem, net⟩ })) := by
  constructor
  · intro h
    unfold LedgerInput.getRing
    rw [h]
  · intro pk hpk hring
    constructor
    · unfold LedgerInput.getRing
      rw [hpk]
      dsimp only
      rw [hring]
      rcases hred : i.redeem with _ | red <;>
        simp [KeyRing.fromPublic, hred]
    · unfold LedgerInput.getRing
      dsimp only
      rw [hpk]

/-- Witness for C8: a missing public key raises the `LedgerError`; a set
public key yields the ring built from it. -/
theorem c8_getRing_witness :
    LedgerInput.getRing inputPKH Network.main =
      Except.error (JSError.ledger "Cannot return ring without public key") ∧
    LedgerInput.getRing inputSH Network.main =
      Except.ok (⟨pkA, some redeemR, Network.main⟩,
        { inputSH with _ring := some ⟨pkA, some redeemR, Network.main⟩ }) :=
  ⟨(c8_getRing inputPKH Network.main).1 rfl,
   ((c8_getRing inputSH Network.main).2 pkA rfl rfl).1⟩

/-- C9: `getPrevRedeem` returns the redeem script exactly when the
coin's address is script-hash and otherwise the value of `getPrev`; a
cached value is returned as is, and once a call has produced a value the
next call returns the very same value and state (memoization). -/
theorem c9_getPrevRedeem (i : LedgerInput) (c : Coin) :
    (∀ p, i._prevred = some p → i.getPrevRedeem = Except.ok (some p, i)) ∧
    (i._prevred = none → i.coin = some c → c.address.isScripthash = true →
      i.getPrevRedeem = Except.ok (i.redeem, { i with _prevred := i.redeem })) ∧
    (i._prevred = none → i.coin = some c → c.address.isScripthash = false →
      ∀ q i1, i.getPrev = Except.ok (q, i1) →
        i.getPrevRedeem = Except.ok (some q, { i1 with _prevred := some q })) ∧
    (∀ v i1, i.getPrevRedeem = Except.ok (some v, i1) →
      i1.getPrevRedeem = Except.ok (some v, i1)) := by
  refine ⟨?_, ?_, ?_, ?_⟩
  · intro p hp
    unfold LedgerInput.getPrevRedeem
    rw [hp]
  · intro hpr hc hsh
    unfold LedgerInput.getPrevRedeem
    rw [hpr]
    dsimp only
    rw [hc]
    dsimp only
    rw [if_pos hsh]
  · intro hpr hc hsh q i1 hq
    unfold LedgerInput.getPrevRedeem
    rw [hpr]
    dsimp only
    rw [hc]
    dsimp only
    rw [if_neg (by simp [hsh])]
    rw [hq]
  · intro v i1 h
    have hpr : i1._prevred = some v := by
      unfold LedgerInput.getPrevRedeem at h
      rcases hc : i._prevred with _ | p <;> rw [hc] at h <;> dsimp only at h
      · rcases hco : i.coin with _ | c0 <;> rw [hco] at h <;> dsimp only at h
        · exact absurd h (by simp)
        · by_cases hsh : c0.address.isScripthash = true
          · rw [if_pos hsh] at h
            simp only [Except.ok.injEq, Prod.mk.injEq] at h
            obtain ⟨h1, h2⟩ := h
            subst h2
            simpa using h1
          · rw [if_neg hsh] at h
            rcases hgp : i.getPrev with e | ⟨q, i2⟩ <;> rw [hgp] at h <;>
              dsimp only at h
            · exact absurd h (by simp)
            · simp only [Except.ok.injEq, Prod.mk.injEq, Option.some.injEq] at h
              obtain ⟨h1, h2⟩ := h
              subst h2
              simp [h1]
      · simp only [Except.ok.injEq, Prod.mk.injEq, Option.some.injEq] at h
        obtain ⟨h1, h2⟩ := h
        subst h2
        rw [hc, h1]
    unfold LedgerInput.getPrevRedeem
    rw [hpr]

/-- Witness for C9: the script-hash fixture returns its redeem script,
and a second call returns the same value and state. -/
theorem c9_getPrevRedeem_witness :
    inputSH.getPrevRedeem = Except.ok (some redeemR, inputSH1) ∧
    inputSH1.getPrevRedeem = Except.ok (some redeemR, inputSH1) := by
  have h1 : inputSH.getPrevRedeem = Except.ok (some redeemR, inputSH1) :=
    (c9_getPrevRedeem inputSH coinSH).2.1 rfl rfl rfl
  exact ⟨h1, (c9_getPrevRedeem inputSH coinSH).2.2.2 redeemR inputSH1 h1⟩

/-- C10: no constructor option ever sets the `script` field consulted by
`getPrev` (`fromOptions` always leaves it empty), so for every
constructed input with a non-script-hash coin, `getPrev` — and hence
`getPrevRedeem` — always takes the ring branch and throws the
`LedgerError` when the public key is missing. -/
theorem c10_script_branch_unreachable (opts : LIOptions) (i : LedgerInput) (c : Coin)
    (hok : LedgerInput.fromOptions opts = Except.ok i)
    (hc : i.coin = some c) (hsh : c.address.isScripthash = false)
    (hpk : i.publicKey = none) :
    i.script = none ∧
    i.getPrev =
      Except.error (JSError.ledger "Cannot return ring without public key") ∧
    i.getPrevRedeem =
      Except.error (JSError.ledger "Cannot return ring without public key") := by
  obtain ⟨hscript, hring, hkey, hprev, hprevred, houtp, -, -, -, -⟩ :=
    fromOptions_ok_shape opts i hok
  have hgp : i.getPrev =
      Except.error (JSError.ledger "Cannot return ring without public key") := by
    unfold LedgerInput.getPrev
    rw [hprev]
    dsimp only
    rw [hscript]
    dsimp only
    unfold LedgerInput.getRing
    rw [hpk]
  refine ⟨hscript, hgp, ?_⟩
  unfold LedgerInput.getPrevRedeem
  rw [hprevred]
  dsimp only
  rw [hc]
  dsimp only
  rw [if_neg (by simp [hsh])]
  rw [hgp]

/-- Witness for C10: the pubkey-hash fixture without a public key. -/
theorem c10_script_branch_unreachable_witness :
    inputPKH.script = none ∧
    inputPKH.getPrev =
      Except.error (JSError.ledger "Cannot return ring without public key") ∧
    inputPKH.getPrevRedeem =
      Except.error (JSError.ledger "Cannot return ring without public key") :=
  c10_script_branch_unreachable
    { path := some [0], type := none, redeem := none
      , coin := some coinPKH, publicKey := none }
    inputPKH coinPKH rfl rfl rfl rfl

/- ## src/lib/ledger/client.js — transaction preamble serialization -/

/-- bufio `writeU32`: 32-bit little-endian. -/
def u32LE (n : Nat) : List Nat :=
  [n % 256, n / 256 % 256, n / 2 ^ 16 % 256, n / 2 ^ 24 % 256]

/-- bufio `writeU64`: 64-bit little-endian. -/
def u64LE (n : Nat) : List Nat :=
  [n % 256, n / 256 % 256, n / 2 ^ 16 % 256, n / 2 ^ 24 % 256,
   n / 2 ^ 32 % 256, n / 2 ^ 40 % 256, n / 2 ^ 48 % 256, n / 2 ^ 56 % 256]

/-- bufio `encoding.sizeVarint`. -/
def sizeVarint (n : Nat) : Nat :=
  if n < 0xfd then 1 else if n ≤ 0xffff then 3 else if n ≤ 0xffffffff then 5 else 9

/-- bufio `writeVarint` (Bitcoin-style variable-length integer). -/
def varint (n : Nat) : List Nat :=
  if n < 0xfd then [n]
  else if n ≤ 0xffff then [0xfd, n % 256, n / 256 % 256]
  else if n ≤ 0xffffffff then 0xfe :: u32LE n
  else 0xff :: u64LE n

/-- bufio `sizeVarbytes`. -/
def sizeVarbytes (b : List Nat) : Nat := sizeVarint b.length + b.length

/-- bufio `writeVarbytes`: var-size header then the bytes. -/
def varbytes (b : List Nat) : List Nat := varint b.length ++ b

/-- hsd `Outpoint.write`: 32-byte hash then 32-bit index. -/
def Outpoint.write (o : Outpoint) : List Nat := o.hash ++ u32LE o.index

/-- hsd `Outpoint.getSize()`: always 36. -/
def Outpoint.getSize (_ : Outpoint) : Nat := 36

/-- hsd `Address.write`: version byte, hash-length byte, hash. -/
def Address.write (a : Address) : List Nat :=
  [a.version % 256, a.hash.length % 256] ++ a.hash

/-- hsd `Address.getSize()`: 2 + hash length. -/
def Address.getSize (a : Address) : Nat := 2 + a.hash.length

/-- hsd `Covenant`: action type and data items. -/
structure Covenant where
  type : Nat
  items : List (List Nat)
  deriving DecidableEq, Repr

/-- hsd `Covenant.write`: type byte, varint item count, var-bytes
items. -/
def Covenant.write (cv : Covenant) : List Nat :=
  cv.type % 256 :: (varint cv.items.length ++ (cv.items.map varbytes).flatten)

/-- hsd `Covenant.getVarSize()`: 1 + varint item count + var-bytes
items. -/
def Covenant.getVarSize (cv : Covenant) : Nat :=
  1 + sizeVarint cv.items.length + (cv.items.map sizeVarbytes).sum

/-- hsd transaction input as read by `parseTX`: previous outpoint and
sequence number. -/
structure TxInput where
  prevout : Outpoint
  sequence : Nat
  deriving DecidableEq, Repr

/-- hsd transaction output as read by `parseTX`: value, address,
covenant. -/
structure TxOutput where
  value : Nat
  address : Address
  covenant : Covenant
  deriving DecidableEq, Repr

/-- hsd `MTX` (the fields `parseTX` reads). -/
structure MTX where
  version : Nat
  locktime : Nat
  inputs : List TxInput
  outputs : List TxOutput
  deriving DecidableEq, Repr

/-- `outs` of `parseTX` (client.js lines 119-125): total serialized size
of the outputs. -/
def parseTXOutsSize (mtx : MTX) : Nat :=
  (mtx.outputs.map (fun o => 8 + o.address.getSize + o.covenant.getVarSize)).sum

/-- `size` of `parseTX` (client.js lines 108-128): the precomputed
allocation for the preamble buffer. -/
def parseTXSize (mtx : MTX) : Nat :=
  8 + sizeVarint mtx.inputs.length + sizeVarint mtx.outputs.length +
    (mtx.inputs.map (fun txin => 4 + txin.prevout.getSize)).sum +
    sizeVarint (parseTXOutsSize mtx) + parseTXOutsSize mtx

/-- The preamble buffer written by `parseTX` (client.js lines 130-147),
field writes in source order. -/
def parseTXBuffer (mtx : MTX) : List Nat :=
  u32LE mtx.version ++ u32LE mtx.locktime ++
  varint mtx.inputs.length ++ varint mtx.outputs.length ++
  varint (parseTXOutsSize mtx) ++
  (mtx.inputs.map (fun txin => txin.prevout.write ++ u32LE txin.sequence)).flatten ++
  (mtx.outputs.map (fun o => u64LE o.value ++ o.address.write ++ o.covenant.write)).flatten

/-- `varint` writes exactly `sizeVarint` bytes. -/
theorem varint_length (n : Nat) : (varint n).length = sizeVarint n := by
  unfold varint sizeVarint
  split_ifs <;> simp [u32LE, u64LE]

/-- `varbytes` writes exactly `sizeVarbytes` bytes. -/
theorem varbytes_length (b : List Nat) : (varbytes b).length = sizeVarbytes b := by
  simp [varbytes, sizeVarbytes, varint_length]

/-- `Covenant.write` writes exactly `Covenant.getVarSize` bytes. -/
theorem covenant_write_length (cv : Covenant) :
    cv.write.length = cv.getVarSize := by
  unfold Covenant.write Covenant.getVarSize
  simp only [List.length_cons, List.length_append, varint_length,
    List.length_flatten, List.map_map]
  have : cv.items.map (List.length ∘ varbytes) = cv.items.map sizeVarbytes := by
    refine List.map_congr_left ?_
    intro b _
    exact varbytes_length b
  rw [this]
  omega

/-- The serialized inputs section has the precomputed size, given
32-byte previous-transaction hashes. -/
theorem inputs_join_length (l : List TxInput)
    (h32 : ∀ t ∈ l, t.prevout.hash.length = 32) :
    ((l.map (fun t => t.prevout.write ++ u32LE t.sequence)).flatten).length =
    (l.map (fun t => 4 + t.prevout.getSize)).sum := by
  induction l with
  | nil => simp
  | cons a as ih =>
    simp only [List.map_cons, List.flatten_cons, List.length_append]
    rw [ih (fun t ht => h32 t (List.mem_cons_of_mem a ht))]
    have ha := h32 a (List.mem_cons_self a as)
    simp [Outpoint.write, Outpoint.getSize, u32LE, ha]

/-- The serialized outputs section has the precomputed size. -/
theorem outputs_join_length (l : List TxOutput) :
    ((l.map (fun o => u64LE o.value ++ o.address.write ++ o.covenant.write)).flatten).length =
    (l.map (fun o => 8 + o.address.getSize + o.covenant.getVarSize)).sum := by
  induction l with
  | nil => simp
  | cons a as ih =>
    simp only [List.map_cons, List.flatten_cons, List.length_append]
    rw [ih]
    simp [u64LE, Address.write, Address.getSize, covenant_write_length]
    omega

/-- C6: `parseTX` serializes the preamble into one contiguous buffer of
exactly the precomputed size, in the field order: 32-bit version, 32-bit
locktime, varint input count, varint output count, varint total outputs
size, each input's previous-outpoint then 32-bit sequence, each output's
64-bit value then address then covenant.  (The second conjunct records
the field order of the writes; the first is the nontrivial fact that the
bytes written fill the `bufio.write(size)` allocation exactly, which is
what `buf.render()` asserts.) -/
theorem c6_parseTX_preamble_layout (mtx : MTX)
    (h32 : ∀ txin ∈ mtx.inputs, txin.prevout.hash.length = 32) :
    (parseTXBuffer mtx).length = parseTXSize mtx ∧
    parseTXBuffer mtx =
      u32LE mtx.version ++ u32LE mtx.locktime ++
      varint mtx.inputs.length ++ varint mtx.outputs.length ++
      varint (parseTXOutsSize mtx) ++
      (mtx.inputs.map (fun txin => txin.prevout.write ++ u32LE txin.sequence)).flatten ++
      (mtx.outputs.map
        (fun o => u64LE o.value ++ o.address.write ++ o.covenant.write)).flatten := by
  refine ⟨?_, rfl⟩
  unfold parseTXBuffer parseTXSize
  simp only [List.length_append, varint_length,
    inputs_join_length mtx.inputs h32, outputs_join_length mtx.outputs]
  simp [u32LE, parseTXOutsSize]
  omega

/-- Fixture: a one-input, one-output transaction. -/
def mtxFix : MTX :=
  { version := 0, locktime := 0
  , inputs := [{ prevout := { hash := List.replicate 32 4, index := 2 }
               , sequence := 4294967295 }]
  , outputs := [{ value := 1234, address := addrPKH
                , covenant := { type := 0, items := [[5, 6]] } }] }

/-- Witness for C6 at the concrete fixture transaction. -/
theorem c6_parseTX_preamble_layout_witness :
    (parseTXBuffer mtxFix).length = parseTXSize mtxFix :=
  (c6_parseTX_preamble_layout mtxFix (by decide)).1

/- ## Chunking and the multi-exchange protocol runs -/

/-- `util.splitBuffer(data, size)`.  Modelled from the spec (`util.js`
is not under `src/`): "split that buffer into chunks bounded by a fixed
maximum packet size" — greedy maximal chunks in order.  The source is
never called with size 0 (the third `zeroCopy` argument only affects
buffer aliasing, not chunk boundaries). -/
def splitBufferGo (m : Nat) : Nat → List Nat → List (List Nat)
  | _, [] => []
  | 0, _ :: _ => []
  | fuel + 1, b :: bs =>
    ((b :: bs).take (m + 1)) :: splitBufferGo m fuel ((b :: bs).drop (m + 1))

/-- `util.splitBuffer(data, size)`.  Modelled from the spec (`util.js`
is not under `src/`): "split that buffer into chunks bounded by a fixed
maximum packet size" — greedy maximal chunks in order.  The worker
recursion is fuelled by the buffer length (each step consumes at least
one byte, so the fuel never runs out; see `splitBuffer_cons`).  The
source is never called with size 0 (the third `zeroCopy` argument only
affects buffer aliasing, not chunk boundaries). -/
def splitBuffer (buf : List Nat) (max : Nat) : List (List Nat) :=
  match max with
  | 0 => []
  | m + 1 => splitBufferGo m buf.length buf

/-- The worker ignores the fuel as long as it bounds the buffer
length. -/
theorem splitBufferGo_fuel (m : Nat) :
    ∀ (f1 : Nat) (f2 : Nat) (buf : List Nat), buf.length ≤ f1 →
      buf.length ≤ f2 → splitBufferGo m f1 buf = splitBufferGo m f2 buf := by
  intro f1
  induction f1 with
  | zero =>
    intro f2 buf h1 h2
    have : buf = [] := by
      cases buf with
      | nil => rfl
      | cons b bs => simp at h1
    subst this
    cases f2 <;> rfl
  | succ g ih =>
    intro f2 buf h1 h2
    cases buf with
    | nil => cases f2 <;> rfl
    | cons b bs =>
      match f2 with
      | g2 + 1 =>
        simp only [splitBufferGo, List.cons.injEq, true_and]
        apply ih
        · simp only [List.length_drop, List.length_cons]
          simp only [List.length_cons] at h1
          omega
        · simp only [List.length_drop, List.length_cons]
          simp only [List.length_cons] at h2
          omega

/-- One unfolding step of `splitBuffer` on a nonempty buffer. -/
theorem splitBuffer_cons (m : Nat) (buf : List Nat) (h : buf ≠ []) :
    splitBuffer buf (m + 1) =
      buf.take (m + 1) :: splitBuffer (buf.drop (m + 1)) (m + 1) := by
  cases buf with
  | nil => exact absurd rfl h
  | cons b bs =>
    show splitBufferGo m (bs.length + 1) (b :: bs) =
      (b :: bs).take (m + 1) ::
        splitBufferGo m ((b :: bs).drop (m + 1)).length ((b :: bs).drop (m + 1))
    simp only [splitBufferGo, List.cons.injEq, true_and]
    apply splitBufferGo_fuel
    · simp only [List.length_drop, List.length_cons]
      omega
    · exact le_rfl

/-- A nonempty buffer splits into `⌈length / max⌉` chunks (written with
natural division as `(length + max - 1) / max`). -/
theorem splitBuffer_length (m : Nat) :
    ∀ (n : Nat) (buf : List Nat), buf.length ≤ n → buf ≠ [] →
      (splitBuffer buf (m + 1)).length = (buf.length + m) / (m + 1) := by
  intro n
  induction n with
  | zero =>
    intro buf hle hne
    cases buf with
    | nil => exact absurd rfl hne
    | cons b bs => simp at hle
  | succ n ih =>
    intro buf hle hne
    match buf with
    | b :: bs =>
      have hle1 : bs.length ≤ n := by simpa using hle
      rw [splitBuffer_cons m _ hne]
      simp only [List.length_cons]
      by_cases hbs : (b :: bs).drop (m + 1) = []
      · rw [hbs]
        have hlen : bs.length ≤ m := by
          have := congrArg List.length hbs
          simp only [List.length_drop, List.length_cons, List.length_nil] at this
          omega
        show 0 + 1 = (bs.length + 1 + m) / (m + 1)
        symm
        exact Nat.div_eq_of_lt_le (by omega) (by omega)
      · have hdl : ((b :: bs).drop (m + 1)).length = bs.length - m := by
          simp only [List.length_drop, List.length_cons]
          omega
        have hgt : m < bs.length := by
          rcases Nat.lt_or_ge m bs.length with h | h
          · exact h
          · exact absurd (by
              apply List.eq_nil_of_length_eq_zero
              rw [hdl]
              omega) hbs
        rw [ih _ (by rw [hdl]; omega) hbs, hdl]
        have h1 : bs.length - m + m = bs.length := by omega
        have h2 : bs.length + 1 + m = bs.length + (m + 1) := by omega
        rw [h1, h2, Nat.add_div_right _ (Nat.succ_pos m)]

/-- Device responses in the signature-retrieval protocol: a 2-byte
status word and the instruction payload. -/
structure SigResponse where
  status : Nat
  payload : List Nat
  deriving DecidableEq, Repr

/-- `APDUResponse.parseTX`, modelled from the spec (`apdu.js` is not
under `src/`): the response to a transaction-stream chunk is an empty
acknowledgement on `SUCCESS`; any other status word raises the mapped
typed error. -/
def apduResponseParseTX (status : Nat) : Except JSError Unit :=
  if status = statusSUCCESS then Except.ok ()
  else Except.error (apduErrorFor status)

/-- `APDUResponse.getInputSignature`, modelled from the spec: on
`SUCCESS` the response is an empty acknowledgement when the ack flag is
set and the signature bytes otherwise; any other status word raises the
mapped typed error. -/
def apduResponseGetInputSignature (r : SigResponse) (ack : Bool) :
    Except JSError (List Nat) :=
  if r.status = statusSUCCESS then
    if ack then Except.ok [] else Except.ok r.payload
  else Except.error (apduErrorFor r.status)

/-- The chunk loop of `parseTX` (client.js lines 149-161): send each
chunk — `first` tags the new-message chunk — await the acknowledgement,
abort on a non-success status.  `dev j` is the status word of the j-th
exchange; the returned list records the sent packets (chunk, tag) in
order. -/
def parseTXLoop (chunks : List (List Nat)) (first : Bool) (dev : Nat → Nat)
    (k : Nat) : List (List Nat × Bool) × Except JSError Unit :=
  match chunks with
  | [] => ([], Except.ok ())
  | c :: rest =>
    match apduResponseParseTX (dev k) with
    | Except.ok _ =>
      let r := parseTXLoop rest false dev (k + 1)
      ((c, first) :: r.1, r.2)
    | Except.error e => ([(c, first)], Except.error e)

/-- `LedgerClient.parseTX` exchange phase (client.js lines 149-161):
split the preamble buffer at `util.MAX_TX_PACKET` (a positive packet
size parameter here, its numeric value living in the absent `util.js`),
send the first chunk tagged new-message and the rest tagged
continuation, each response parsed as an acknowledgement. -/
def runParseTX (mtx : MTX) (maxTxPacket : Nat) (dev : Nat → Nat) :
    List (List Nat × Bool) × Except JSError Unit :=
  parseTXLoop (splitBuffer (parseTXBuffer mtx) maxTxPacket) true dev 0

/-- Behavior of the `parseTX` chunk loop: with successes at exchanges
`k..k+i-1` and (when any chunk remains) a failure at `k+i`, exactly
`min (i+1) n` packets are sent, in chunk order, the head tagged `first`
and the rest continuation, and the result is the mapped error of the
failing status (or success when every chunk was acknowledged). -/
theorem parseTXLoop_spec (chunks : List (List Nat)) :
    ∀ (first : Bool) (dev : Nat → Nat) (k i : Nat),
      i ≤ chunks.length →
      (∀ j, j < i → dev (k + j) = statusSUCCESS) →
      (i < chunks.length → dev (k + i) ≠ statusSUCCESS) →
      (parseTXLoop chunks first dev k).1.map Prod.fst =
        chunks.take (min (i + 1) chunks.length) ∧
      (parseTXLoop chunks first dev k).1.map Prod.snd =
        (if 0 < min (i + 1) chunks.length then
          first :: List.replicate (min (i + 1) chunks.length - 1) false
        else []) ∧
      (parseTXLoop chunks first dev k).2 =
        (if i < chunks.length then Except.error (apduErrorFor (dev (k + i)))
         else Except.ok ()) := by
  induction chunks with
  | nil =>
    intro first dev k i hi hsucc hfail
    simp [parseTXLoop]
  | cons c rest ih =>
    intro first dev k i hi hsucc hfail
    match i with
    | 0 =>
      have hf : dev (k + 0) ≠ statusSUCCESS := hfail (by simp)
      simp only [Nat.add_zero] at hf
      simp only [parseTXLoop, apduResponseParseTX, if_neg hf]
      refine ⟨?_, ?_, ?_⟩
      · simp
      · simp
      · simp [if_pos (by simp : (0:Nat) < (c :: rest).length)]
    | i' + 1 =>
      have hs0 : dev k = statusSUCCESS := by
        have := hsucc 0 (Nat.succ_pos i')
        simpa using this
      simp only [parseTXLoop, apduResponseParseTX, if_pos hs0]
      obtain ⟨h1, h2, h3⟩ := ih false dev (k + 1) i'
        (by simpa using hi)
        (fun j hj => by
          have := hsucc (j + 1) (by omega)
          rwa [show k + (j + 1) = k + 1 + j by omega] at this)
        (fun hlt => by
          have := hfail (by simpa using hlt)
          rwa [show k + (i' + 1) = k + 1 + i' by omega] at this)
      refine ⟨?_, ?_, ?_⟩
      · simp only [List.map_cons, h1, List.length_cons]
        rw [show min (i' + 1 + 1) (rest.length + 1) = min (i' + 1) rest.length + 1
          from Nat.succ_min_succ _ _]
        simp
      · simp only [List.map_cons, h2, List.length_cons]
        rw [show min (i' + 1 + 1) (rest.length + 1) = min (i' + 1) rest.length + 1
          from Nat.succ_min_succ _ _]
        by_cases hmin : 0 < min (i' + 1) rest.length
        · rw [if_pos hmin, if_pos (by omega)]
          simp only [Nat.add_sub_cancel]
          rw [show min (i' + 1) rest.length = (min (i' + 1) rest.length - 1) + 1
            by omega]
          simp [List.replicate_succ]
        · rw [if_neg hmin, if_pos (by omega)]
          have : min (i' + 1) rest.length = 0 := by omega
          simp [this]
      · simp only [h3, List.length_cons]
        by_cases hlt : i' < rest.length
        · rw [if_pos hlt, if_pos (by omega),
            show k + 1 + i' = k + (i' + 1) by omega]
        · rw [if_neg hlt, if_neg (by omega)]

/-- Fixture: a device that acknowledges the first exchange and rejects
the second with `CONDITIONS_OF_USE_NOT_SATISFIED`. -/
def devW : Nat → Nat := fun j => if j = 0 then 0x9000 else 0x6985

/-- C5: a preamble larger than the packet size splits into at least two
chunks; `parseTX` sends them strictly in splitting order, tags only the
first as a new message, awaits a success acknowledgement per chunk, and
on the first non-success response (position `i`) stops after exactly
`i + 1` packets with the mapped typed error; when every response is a
success, all chunks are sent and the operation succeeds. -/
theorem c5_parseTX_chunk_abort (mtx : MTX) (m : Nat) (dev : Nat → Nat) (i : Nat)
    (hbig : m + 1 < (parseTXBuffer mtx).length)
    (hi : i ≤ (splitBuffer (parseTXBuffer mtx) (m + 1)).length)
    (hsucc : ∀ j, j < i → dev j = statusSUCCESS)
    (hfail : i < (splitBuffer (parseTXBuffer mtx) (m + 1)).length →
      dev i ≠ statusSUCCESS) :
    2 ≤ (splitBuffer (parseTXBuffer mtx) (m + 1)).length ∧
    (runParseTX mtx (m + 1) dev).1.map Prod.fst =
      (splitBuffer (parseTXBuffer mtx) (m + 1)).take
        (min (i + 1) (splitBuffer (parseTXBuffer mtx) (m + 1)).length) ∧
    (runParseTX mtx (m + 1) dev).1.map Prod.snd =
      true :: List.replicate
        (min (i + 1) (splitBuffer (parseTXBuffer mtx) (m + 1)).length - 1) false ∧
    (runParseTX mtx (m + 1) dev).2 =
      (if i < (splitBuffer (parseTXBuffer mtx) (m + 1)).length then
        Except.error (apduErrorFor (dev i))
      else Except.ok ()) := by
  have hne : parseTXBuffer mtx ≠ [] := by
    intro h
    rw [h] at hbig
    simp at hbig
  have hn2 : 2 ≤ (splitBuffer (parseTXBuffer mtx) (m + 1)).length := by
    rw [splitBuffer_length m (parseTXBuffer mtx).length (parseTXBuffer mtx)
      le_rfl hne]
    exact (Nat.le_div_iff_mul_le (Nat.succ_pos m)).mpr (by omega)
  obtain ⟨h1, h2, h3⟩ := parseTXLoop_spec (splitBuffer (parseTXBuffer mtx) (m + 1))
    true dev 0 i hi (fun j hj => by simpa using hsucc j hj)
    (fun h => by simpa using hfail h)
  refine ⟨hn2, h1, ?_, by simpa using h3⟩
  rw [show (runParseTX mtx (m + 1) dev) =
    parseTXLoop (splitBuffer (parseTXBuffer mtx) (m + 1)) true dev 0 from rfl]
  rw [h2, if_pos (by omega)]

/-- Witness for C5: the fixture transaction at packet size 64 splits in
two; rejecting the second chunk aborts with the mapped user-rejection
error after both packets, the first tagged new-message. -/
theorem c5_parseTX_chunk_abort_witness :
    2 ≤ (splitBuffer (parseTXBuffer mtxFix) 64).length ∧
    (runParseTX mtxFix 64 devW).1.map Prod.fst =
      (splitBuffer (parseTXBuffer mtxFix) 64).take 2 ∧
    (runParseTX mtxFix 64 devW).1.map Prod.snd = [true, false] ∧
    (runParseTX mtxFix 64 devW).2 = Except.error (apduErrorFor (devW 1)) :=
  c5_parseTX_chunk_abort mtxFix 63 devW 1 (by decide) (by decide)
    (fun j hj => by
      have hj0 : j = 0 := by omega
      subst hj0
      rfl)
    (fun _ => by decide)

/-- A recorded signature-retrieval exchange: the script chunk sent,
whether the packet was built as the first packet (carrying path, coin
and sighash type), and whether the response was parsed as an empty
acknowledgement (`true`) or for signature bytes (`false`). -/
structure SigExchange where
  chunk : List Nat
  isFirst : Bool
  expectAck : Bool
  deriving DecidableEq, Repr

/-- The middle/last packet loop of `getInputSignature` (client.js lines
205-221): each middle chunk is sent expecting an empty acknowledgement
(aborting on non-success), then the last chunk is sent and its response
parsed for the signature. -/
def getInputSignatureLoop (middles : List (List Nat)) (lastChunk : List Nat)
    (dev : Nat → SigResponse) (k : Nat) :
    List SigExchange × Except JSError (List Nat) :=
  match middles with
  | [] => ([⟨lastChunk, false, false⟩], apduResponseGetInputSignature (dev k) false)
  | c :: rest =>
    match apduResponseGetInputSignature (dev k) true with
    | Except.ok _ =>
      let r := getInputSignatureLoop rest lastChunk dev (k + 1)
      (⟨c, false, true⟩ :: r.1, r.2)
    | Except.error e => ([⟨c, false, true⟩], Except.error e)

/-- `LedgerClient.getInputSignature` (client.js lines 173-222): prefix
the previous-redeem script bytes with their var-size header, split at
`util.MAX_SCRIPT_PACKET` (a positive packet-size parameter here, its
numeric value living in the absent `util.js`), send the first packet
(built from the ledger input), and if it was the only packet parse its
response for the signature; otherwise parse it as an acknowledgement,
stream the middles, and parse only the last response for the signature.
`dev j` is the response to the j-th exchange.  (The `[]` chunk case is
unreachable: the encoded script is never empty.) -/
def runGetInputSignature (raw : List Nat) (maxScriptPacket : Nat)
    (dev : Nat → SigResponse) : List SigExchange × Except JSError (List Nat) :=
  match splitBuffer (varbytes raw) maxScriptPacket with
  | [] => ([], Except.ok [])
  | first :: rest =>
    match rest with
    | [] => ([⟨first, true, false⟩], apduResponseGetInputSignature (dev 0) false)
    | r0 :: rs =>
      match apduResponseGetInputSignature (dev 0) true with
      | Except.ok _ =>
        let r := getInputSignatureLoop ((r0 :: rs).dropLast)
          ((r0 :: rs).getLast (List.cons_ne_nil r0 rs)) dev 1
        (⟨first, true, true⟩ :: r.1, r.2)
      | Except.error e => ([⟨first, true, true⟩], Except.error e)

/-- Behavior of the middle/last loop when every response is a success:
one exchange per middle chunk plus the final one, in order, all but the
last parsed as acknowledgements, the last parsed for the signature of
the final response. -/
theorem getInputSignatureLoop_spec (middles : List (List Nat)) :
    ∀ (lastChunk : List Nat) (dev : Nat → SigResponse) (k : Nat),
      (∀ j, (dev j).status = statusSUCCESS) →
      (getInputSignatureLoop middles lastChunk dev k).1.map SigExchange.chunk =
        middles ++ [lastChunk] ∧
      (getInputSignatureLoop middles lastChunk dev k).1.map SigExchange.isFirst =
        List.replicate (middles.length + 1) false ∧
      (getInputSignatureLoop middles lastChunk dev k).1.map SigExchange.expectAck =
        List.replicate middles.length true ++ [false] ∧
      (getInputSignatureLoop middles lastChunk dev k).2 =
        Except.ok (dev (k + middles.length)).payload := by
  induction middles with
  | nil =>
    intro lastChunk dev k hdev
    simp [getInputSignatureLoop, apduResponseGetInputSignature, hdev k]
  | cons c rest ih =>
    intro lastChunk dev k hdev
    obtain ⟨h1, h2, h3, h4⟩ := ih lastChunk dev (k + 1) hdev
    simp only [getInputSignatureLoop, apduResponseGetInputSignature, hdev k,
      if_pos rfl, if_true]
    refine ⟨?_, ?_, ?_, ?_⟩
    · simp [h1]
    · simp [h2, List.replicate_succ]
    · simp [h3, List.replicate_succ]
    · rw [h4]
      have harith : k + 1 + rest.length = k + (c :: rest).length := by
        simp only [List.length_cons]
        omega
      rw [harith]

/-- C2: with every response successful, signature retrieval performs
exactly `n = ⌈encoded_size / MAX_SCRIPT_PACKET⌉` exchanges — the chunks
of the var-size-prefixed script in order, only the head packet built as
the first packet — the first `n - 1` responses parsed as empty
acknowledgements and only the n-th parsed for signature bytes, which
are returned; with one chunk that single exchange is parsed for the
signature directly. -/
theorem c2_getInputSignature_exchanges (raw : List Nat) (m : Nat)
    (dev : Nat → SigResponse)
    (hdev : ∀ j, (dev j).status = statusSUCCESS) :
    (splitBuffer (varbytes raw) (m + 1)).length =
      ((varbytes raw).length + m) / (m + 1) ∧
    (runGetInputSignature raw (m + 1) dev).1.map SigExchange.chunk =
      splitBuffer (varbytes raw) (m + 1) ∧
    (runGetInputSignature raw (m + 1) dev).1.map SigExchange.isFirst =
      true :: List.replicate ((splitBuffer (varbytes raw) (m + 1)).length - 1) false ∧
    (runGetInputSignature raw (m + 1) dev).1.map SigExchange.expectAck =
      List.replicate ((splitBuffer (varbytes raw) (m + 1)).length - 1) true ++
        [false] ∧
    (runGetInputSignature raw (m + 1) dev).2 =
      Except.ok (dev ((splitBuffer (varbytes raw) (m + 1)).length - 1)).payload := by
  have hvne : varbytes raw ≠ [] := by
    unfold varbytes varint
    split_ifs <;> simp
  have hlen := splitBuffer_length m (varbytes raw).length (varbytes raw) le_rfl hvne
  refine ⟨hlen, ?_⟩
  rcases hchunks : splitBuffer (varbytes raw) (m + 1) with _ | ⟨first, rest⟩
  · exfalso
    rw [splitBuffer_cons m _ hvne] at hchunks
    simp at hchunks
  rcases rest with _ | ⟨r0, rs⟩
  · unfold runGetInputSignature
    rw [hchunks]
    dsimp only
    refine ⟨by simp, by simp, by simp, ?_⟩
    simp [apduResponseGetInputSignature, hdev 0]
  · unfold runGetInputSignature
    rw [hchunks]
    dsimp only
    have hack : apduResponseGetInputSignature (dev 0) true = Except.ok [] := by
      simp [apduResponseGetInputSignature, hdev 0]
    rw [hack]
    dsimp only
    obtain ⟨h1, h2, h3, h4⟩ := getInputSignatureLoop_spec ((r0 :: rs).dropLast)
      ((r0 :: rs).getLast (List.cons_ne_nil r0 rs)) dev 1 hdev
    have hdlen : ((r0 :: rs).dropLast).length = rs.length := by
      simp [List.length_dropLast]
    have happ : (r0 :: rs).dropLast ++ [(r0 :: rs).getLast (List.cons_ne_nil r0 rs)] =
        r0 :: rs := List.dropLast_append_getLast (List.cons_ne_nil r0 rs)
    refine ⟨?_, ?_, ?_, ?_⟩
    · simp only [List.map_cons, h1, happ]
    · simp only [List.map_cons, h2, hdlen, List.length_cons]
      simp [List.replicate_succ]
    · simp only [List.map_cons, h3, hdlen, List.length_cons]
      simp [List.replicate_succ]
    · simp only [h4, hdlen, List.length_cons]
      have harith : 1 + rs.length = rs.length + 1 + 1 - 1 := by omega
      rw [harith]

/-- Fixture: a device returning success with payload `[90, j]` at the
j-th exchange. -/
def devS : Nat → SigResponse := fun j => { status := 0x9000, payload := [90, j] }

/-- Witness for C2: a 3-byte redeem script at packet size 2 encodes to 4
bytes, splits into two chunks, and retrieval takes two exchanges — an
acknowledged first packet, then the last packet whose response carries
the signature. -/
theorem c2_getInputSignature_exchanges_witness :
    (splitBuffer (varbytes [170, 187, 204]) 2).length = 2 ∧
    (runGetInputSignature [170, 187, 204] 2 devS).1.map SigExchange.chunk =
      [[3, 170], [187, 204]] ∧
    (runGetInputSignature [170, 187, 204] 2 devS).1.map SigExchange.isFirst =
      [true, false] ∧
    (runGetInputSignature [170, 187, 204] 2 devS).1.map SigExchange.expectAck =
      [true, false] ∧
    (runGetInputSignature [170, 187, 204] 2 devS).2 = Except.ok [90, 1] :=
  c2_getInputSignature_exchanges [170, 187, 204] 1 devS (fun _ => rfl)
